import Mathlib

/-!
Verification of the pgsrv protocol core: a shallow embedding of the
authentication functions (`clearTextAuthenticator.authenticate`,
`md5Authenticator.authenticate`, `extractPassword`, `hashWithSalt`,
`md5ConstantPasswordProvider.getPassword`), the transaction buffer
(`transaction.Write`, `transaction.flush`) and the query dispatcher
(`query.Query`, `tagger.Tag`), together with theorems about them.

Conventions of the embedding:
- Go byte slices are `List Nat` (each element a byte value below 256);
  `bytes.Equal` is list equality (both treat nil and empty alike).
- The external `crypto/md5` digest is an abstract parameter
  `md5fn : List Nat → List Nat`; nothing is assumed about it.
- The transport is modelled as succeeding: a read hands back the client
  message `m`, writes are collected into an ordered list and return `none`
  (Go `nil`), matching `msgReadWriter` when no transport failure occurs.
- A Go runtime panic (out-of-range slice) is modelled by `Option`: the
  function returns `none` where the Go original would panic.
-/

/-- Go `error` values are modelled by their message strings. -/
abbrev GoErr := String

/-- The `msg` type of the source: a raw wire message, a byte slice. -/
abbrev msg := List Nat

/-- Modelled from the spec: a message's one-byte type tag is its first
byte (`msg.Type`; the accessor itself is outside the given sources). -/
def msgType (m : msg) : Nat := m.headD 0

/-- Byte value of the ASCII character p, the password-response type. -/
def pByte : Nat := 112

/-- Byte value of the ASCII character E, the error-message type. -/
def eByte : Nat := 69

/-- ASCII code of the lowercase hex digit for a nibble, as produced by
Go `%x` formatting (0-9 then a-f). -/
def hexDigit (n : Nat) : Nat := if n < 10 then 48 + n else 87 + n

/-- The two lowercase hex digits of one byte, as produced by Go `%x`.
Inputs are byte values; `% 256` only makes the function total. -/
def hexByte (b : Nat) : List Nat := [hexDigit (b % 256 / 16), hexDigit (b % 16)]

/-- Go `fmt.Sprintf("%x", bs)` over a byte slice: two lowercase hex
digits per byte, concatenated. -/
def hexBytes : List Nat → List Nat
  | [] => []
  | b :: rest => hexByte b ++ hexBytes rest

/-- The three bytes of the literal prefix md5 used by `hashWithSalt`. -/
def md5WordBytes : List Nat := [109, 100, 53]

/-- `hashWithSalt(hash, salt)`: hex-encode the stored hash, append the
salt, digest, and prefix the hex of the digest with md5
(`fmt.Sprintf("md5%x", md5.Sum(puHashSalted))`). -/
def hashWithSalt (md5fn : List Nat → List Nat) (hash salt : List Nat) : List Nat :=
  md5WordBytes ++ hexBytes (md5fn (hexBytes hash ++ salt))

/-- UTF-8 encoding of one Unicode scalar value as byte values. -/
def utf8Encode (c : Nat) : List Nat :=
  if c < 0x80 then [c]
  else if c < 0x800 then [0xC0 + c / 0x40, 0x80 + c % 0x40]
  else if c < 0x10000 then
    [0xE0 + c / 0x1000, 0x80 + c / 0x40 % 0x40, 0x80 + c % 0x40]
  else
    [0xF0 + c / 0x40000, 0x80 + c / 0x1000 % 0x40, 0x80 + c / 0x40 % 0x40,
     0x80 + c % 0x40]

/-- UTF-8 bytes of a Go string (`[]byte(user)`). -/
def strBytes (s : String) : List Nat :=
  (s.data.map (fun ch => utf8Encode ch.toNat)).flatten

/-- `md5ConstantPasswordProvider.getPassword`: returns
`md5.Sum(append(password, []byte(user)...))`. It never fails. -/
def md5ConstantGetPassword (md5fn : List Nat → List Nat) (password : List Nat)
    (user : String) : List Nat :=
  md5fn (password ++ strBytes user)

/-- `constantPasswordProvider.getPassword`: the fixed password,
regardless of the user. It never fails. -/
def constantGetPassword (password : List Nat) (_user : String) : List Nat :=
  password

/-- `extractPassword`: the Go source slices `m[5 : len(m)-1]` with no
length check; the slice expression panics unless `5 ≤ len(m)-1`, i.e.
unless the message has at least 6 bytes. `none` models the panic. -/
def extractPassword (m : msg) : Option (List Nat) :=
  if 6 ≤ m.length then some ((m.drop 5).dropLast) else none

/-- Severity-carrying protocol messages written by the core. Raw wire
bytes appear where the source spells them out; the other constructors
are modelled from the spec, which fixes only their logical content
(the encoders `errMsg`, `rowDescriptionMsg`, `dataRowMsg`,
`completeMsg` are outside the given sources). `errFatal` stands for
`errMsg(WithSeverity(fromErr(err), FATAL))` and `errGeneric` for a
plain `errMsg(err)`. -/
inductive OutMsg where
  | raw (bytes : List Nat)
  | errFatal (text : String)
  | errGeneric (text : String)
  | rowDescription (cols : List String)
  | dataRow (vals : List String)
  | commandComplete (tag : String)
deriving DecidableEq

/-- `authOKMsg()`: the authentication-OK wire message. -/
def authOKMsg : OutMsg := OutMsg.raw [82, 0, 0, 0, 8, 0, 0, 0, 0]

/-- The AuthenticationClearText challenge written by
`clearTextAuthenticator.authenticate`. -/
def clearTextPasswordRequest : OutMsg := OutMsg.raw [82, 0, 0, 0, 8, 0, 0, 0, 3]

/-- The AuthenticationMD5Password challenge with its 4-byte salt,
written by `md5Authenticator.authenticate`. -/
def md5PasswordRequest (salt : List Nat) : OutMsg :=
  OutMsg.raw ([82, 0, 0, 0, 12, 0, 0, 0, 5] ++ salt)

/-- The diagnostic text of `expectedPasswordMessage`:
`fmt.Errorf("expected password response, got message type %c", t)`. -/
def expectedPasswordDiag (t : Nat) : String :=
  "expected password response, got message type " ++ String.mk [Char.ofNat t]

/-- The diagnostic text of `passwordDidNotMatch`:
`fmt.Errorf("Password does not match for user \x22%s\x22", user)`. -/
def passwordMismatchDiag (user : String) : String :=
  "Password does not match for user \"" ++ user ++ "\""

/-- The observable outcome of one `authenticate` run: the boolean
result, the returned `error` value, and the messages written to the
channel in order. -/
structure AuthResult where
  ok : Bool
  err : Option GoErr
  sent : List OutMsg
deriving DecidableEq

/-- `clearTextAuthenticator.authenticate`, for a run in which the
transport succeeds: the challenge write succeeds, the read hands back
`m`, and every later write succeeds (returns `nil`, hence the `none`
in the `err` field — the function returns `rw.Write(...)`). The
password provider is the function `pp` (both providers of the source
are infallible). `none` models the panic of `extractPassword` on a
short message. -/
def clearTextAuthenticate (pp : String → List Nat) (user : String) (m : msg) :
    Option AuthResult :=
  if msgType m = pByte then
    match extractPassword m with
    | none => none
    | some actualPassword =>
      if pp user = actualPassword then
        some ⟨true, none, [clearTextPasswordRequest, authOKMsg]⟩
      else
        some ⟨false, none,
          [clearTextPasswordRequest, OutMsg.errFatal (passwordMismatchDiag user)]⟩
  else
    some ⟨false, none,
      [clearTextPasswordRequest, OutMsg.errFatal (expectedPasswordDiag (msgType m))]⟩

/-- `md5Authenticator.authenticate`, under the same transport model;
`salt` stands for the value produced by `getRandomSalt()` and carried
in the challenge. The expected hash is `hashWithSalt(storedHash, salt)`
with `storedHash = pp user`. -/
def md5Authenticate (md5fn : List Nat → List Nat) (pp : String → List Nat)
    (user : String) (salt : List Nat) (m : msg) : Option AuthResult :=
  if msgType m = pByte then
    match extractPassword m with
    | none => none
    | some actualHash =>
      if hashWithSalt md5fn (pp user) salt = actualHash then
        some ⟨true, none, [md5PasswordRequest salt, authOKMsg]⟩
      else
        some ⟨false, none,
          [md5PasswordRequest salt, OutMsg.errFatal (passwordMismatchDiag user)]⟩
  else
    some ⟨false, none,
      [md5PasswordRequest salt, OutMsg.errFatal (expectedPasswordDiag (msgType m))]⟩

/-- Whether an `authenticate` run accepted the client: it returned and
its boolean result is `true`. -/
def authOk (r : Option AuthResult) : Bool :=
  match r with
  | some a => a.ok
  | none => false

/-- The poisoning test of `transaction.Write`:
`len(t.out) > 0 && t.out[len(t.out)-1].Type() == 'E'`. -/
def lastIsError (out : List msg) : Bool :=
  match out.getLast? with
  | some m => msgType m = eByte
  | none => false

/-- `transaction.Write`: appends to the outgoing buffer unless the last
queued message is an error message, and always returns `nil`. -/
def transactionWrite (out : List msg) (m : msg) : List msg × Option GoErr :=
  if lastIsError out then (out, none) else (out ++ [m], none)

/-- Outcome of one `transaction.flush` run: the messages written
successfully through `p.write` in order, the messages still queued,
and the returned `error`. -/
structure FlushResult where
  log : List msg
  rem : List msg
  err : Option GoErr
deriving DecidableEq

/-- `transaction.flush`: writes `out[0]`, stops keeping the queue as is
when the write fails, otherwise pops and continues; returns the last
write error (`nil` when the queue drained). `wr` models `p.write`,
`none` meaning success. -/
def transactionFlush (wr : msg → Option GoErr) : List msg → FlushResult
  | [] => ⟨[], [], none⟩
  | m :: rest =>
    match wr m with
    | some e => ⟨[], m :: rest, some e⟩
    | none =>
      let r := transactionFlush wr rest
      ⟨m :: r.log, r.rem, r.err⟩

/-- One operation on a transaction buffer instance. -/
inductive TxOp where
  | write (m : msg)
  | flush
deriving DecidableEq

/-- A transaction buffer instance's state, together with a history
flag recording whether some error-typed message was ever actually
appended by `transaction.Write`. -/
structure TxState where
  out : List msg
  errorEnqueued : Bool
deriving DecidableEq

/-- One step of a transaction buffer instance: `transaction.Write` or
`transaction.flush`, with `wr` modelling `p.write`. -/
def txStep (wr : msg → Option GoErr) (s : TxState) : TxOp → TxState
  | TxOp.write m =>
    ⟨(transactionWrite s.out m).1,
     s.errorEnqueued || (!lastIsError s.out && decide (msgType m = eByte))⟩
  | TxOp.flush => ⟨(transactionFlush wr s.out).rem, s.errorEnqueued⟩

/-- A fresh transaction buffer run through a sequence of operations. -/
def runTx (wr : msg → Option GoErr) (ops : List TxOp) : TxState :=
  ops.foldl (txStep wr) ⟨[], false⟩

/-- A backend `driver.Value` as the query path meets it; the source
stringifies each with `fmt.Sprintf("%v", v)`. -/
inductive GoValue where
  | int (i : Int)
  | str (s : String)
deriving DecidableEq

/-- Go `fmt.Sprintf("%v", v)` on the modelled values: decimal for
integers, the string itself for strings. -/
def govFmt : GoValue → String
  | GoValue.int i => toString i
  | GoValue.str s => s

/-- The row loop of `query.Query`: one data-row message per row with
every value stringified, counting rows, then either the error message
for a failing `rows.Next` or the completion message
`fmt.Sprintf("SELECT %d", count)`. The iterator is modelled as the
rows it yields followed by its terminal outcome (`none` = `io.EOF`,
`some e` = an iteration error). -/
def queryRowLoop (rows : List (List GoValue)) (terr : Option GoErr) (count : Nat) :
    List OutMsg :=
  match rows with
  | [] =>
    match terr with
    | some e => [OutMsg.errGeneric e]
    | none => [OutMsg.commandComplete ("SELECT " ++ toString count)]
  | r :: rest => OutMsg.dataRow (r.map govFmt) :: queryRowLoop rest terr (count + 1)

/-- `query.Query`, for a run in which every `session.Write` succeeds:
on a backend error, write the error message and return its write
result (`nil`); otherwise write the row description built from the
backend's column list in order, run the row loop, and return the final
write's result (`nil`). The first component is the ordered list of
messages written, the second the returned `error`. -/
def queryQuery
    (qres : Except GoErr (List String × List (List GoValue) × Option GoErr)) :
    List OutMsg × Option GoErr :=
  match qres with
  | Except.error e => ([OutMsg.errGeneric e], none)
  | Except.ok (cols, rows, terr) =>
    (OutMsg.rowDescription cols :: queryRowLoop rows terr 0, none)

/-- The statement categories `tagger.Tag` switches on; `otherStmt`
stands for any category not named in the switch. -/
inductive StmtNode where
  | insertStmt
  | createTableAsStmt
  | deleteStmt
  | fetchStmt
  | copyStmt
  | updateStmt
  | variableShowStmt
  | selectStmt
  | otherStmt
deriving DecidableEq

/-- The tag word chosen by the switch in `tagger.Tag`; the default
branch yields UPDATE. -/
def taggerTagWord : StmtNode → String
  | StmtNode.insertStmt => "INSERT 0"
  | StmtNode.createTableAsStmt => "SELECT"
  | StmtNode.deleteStmt => "DELETE"
  | StmtNode.fetchStmt => "FETCH"
  | StmtNode.copyStmt => "COPY"
  | StmtNode.updateStmt => "UPDATE"
  | _ => "UPDATE"

/-- `tagger.Tag` for a backend result whose `RowsAffected` reports
`affected`: `fmt.Sprintf("%s %d", tag, affected)`. -/
def taggerTag (n : StmtNode) (affected : Int) : String :=
  taggerTagWord n ++ " " ++ toString affected

/-- C1: the MD5 authenticator accepts exactly the type-p responses
whose extracted payload is md5 followed by the hex of the digest of
the hex-encoded stored hash concatenated with the issued salt; any
message with an extractable payload gets a definite answer, and the
md5 constant provider supplies the digest of password concatenated
with username as the stored hash. -/
theorem md5_accept_iff_salted_hash_matches (md5fn : List Nat → List Nat)
    (pp : String → List Nat) (user : String) (salt : List Nat) (m : msg) :
    (authOk (md5Authenticate md5fn pp user salt m) = true ↔
      (msgType m = pByte ∧
        extractPassword m =
          some (md5WordBytes ++ hexBytes (md5fn (hexBytes (pp user) ++ salt))))) ∧
    ((extractPassword m).isSome = true →
      (md5Authenticate md5fn pp user salt m).isSome = true) ∧
    (∀ password, md5ConstantGetPassword md5fn password user =
      md5fn (password ++ strBytes user)) := by
  refine ⟨?_, ?_, fun _ => rfl⟩
  · by_cases hp : msgType m = pByte
    · cases hx : extractPassword m with
      | none => simp [md5Authenticate, hp, hx, authOk]
      | some a =>
        by_cases he : md5WordBytes ++ hexBytes (md5fn (hexBytes (pp user) ++ salt)) = a
        · simp [md5Authenticate, hp, hx, authOk, hashWithSalt, he]
        · simp [md5Authenticate, hp, hx, authOk, hashWithSalt, he]
          exact fun hcontra => he hcontra.symm
    · simp [md5Authenticate, hp, authOk]
  · intro h
    by_cases hp : msgType m = pByte
    · cases hx : extractPassword m with
      | none => rw [hx] at h; simp at h
      | some a =>
        by_cases he : hashWithSalt md5fn (pp user) salt = a
        · simp [md5Authenticate, hp, hx, he]
        · simp [md5Authenticate, hp, hx, he]
    · simp [md5Authenticate, hp]

/-- C1 witness: a concrete accepting run of the MD5 authenticator. -/
theorem md5_accept_iff_salted_hash_matches_witness :
    authOk (md5Authenticate (fun _ => []) (fun _ => []) "" [1, 2, 3, 4]
      [112, 0, 0, 0, 9, 109, 100, 53, 0]) = true :=
  (md5_accept_iff_salted_hash_matches (fun _ => []) (fun _ => []) "" [1, 2, 3, 4]
    [112, 0, 0, 0, 9, 109, 100, 53, 0]).1.mpr ⟨by decide, by decide⟩

/-- C2: for a type-p response, the clear-text authenticator accepts
exactly when the extracted payload equals the provider's credential
byte-for-byte (so the empty password is accepted against an empty
credential), acceptance sends the authentication-OK message, and any
unequal payload is rejected with the mismatch diagnostic. -/
theorem cleartext_accept_iff_password_matches (pp : String → List Nat)
    (user : String) (m : msg) (hp : msgType m = pByte) :
    (authOk (clearTextAuthenticate pp user m) = true ↔
      extractPassword m = some (pp user)) ∧
    (extractPassword m = some (pp user) →
      clearTextAuthenticate pp user m =
        some ⟨true, none, [clearTextPasswordRequest, authOKMsg]⟩) ∧
    (∀ p, extractPassword m = some p → p ≠ pp user →
      clearTextAuthenticate pp user m =
        some ⟨false, none,
          [clearTextPasswordRequest,
           OutMsg.errFatal (passwordMismatchDiag user)]⟩) := by
  refine ⟨?_, ?_, ?_⟩
  · cases hx : extractPassword m with
    | none => simp [clearTextAuthenticate, hp, hx, authOk]
    | some a =>
      by_cases he : pp user = a
      · simp [clearTextAuthenticate, hp, hx, authOk, he]
      · simp [clearTextAuthenticate, hp, hx, authOk, he]
        exact fun hcontra => he hcontra.symm
  · intro hx
    simp [clearTextAuthenticate, hp, hx]
  · intro p hx hne
    simp [clearTextAuthenticate, hp, hx]
    intro he
    exact absurd he.symm hne

/-- C2 witness: the empty password is accepted against the empty
credential in a concrete run. -/
theorem cleartext_accept_iff_password_matches_witness :
    clearTextAuthenticate (fun _ => []) "" [112, 0, 0, 0, 5, 0] =
      some ⟨true, none, [clearTextPasswordRequest, authOKMsg]⟩ :=
  (cleartext_accept_iff_password_matches (fun _ => []) "" [112, 0, 0, 0, 5, 0]
    (by decide)).2.1 (by decide)

/-- C3 counterexample: it is not true that once an error message has
been enqueued on a buffer instance, every later enqueue on that same
instance is a no-op — a fully successful flush drains the error
message and re-enables enqueueing. Refuted on the concrete run:
enqueue an error message, flush with all writes succeeding, enqueue
again; the queue length changes. -/
theorem tx_poisoning_permanent_refuted :
    ¬ (∀ (wr : msg → Option GoErr) (ops : List TxOp) (m : msg),
        (runTx wr ops).errorEnqueued = true →
        ((transactionWrite (runTx wr ops).out m).1).length =
          (runTx wr ops).out.length) := by
  intro h
  have h2 := h (fun _ => none) [TxOp.write [69, 0, 0, 0, 4], TxOp.flush]
    [84, 0, 0, 0, 4] (by decide)
  exact absurd h2 (by decide)

/-- C3 amended: while the outgoing queue's last message has type E —
which holds from the moment an error message is enqueued for as long
as it remains queued — every `transaction.Write` is a silent no-op,
and any run of consecutive writes leaves the buffer unchanged;
appending an error message always establishes that condition. A fully
drained flush removes the error message and ends the poisoning. -/
theorem tx_write_noop_while_error_last (out : List msg) (msgs : List msg)
    (h : lastIsError out = true) :
    (∀ m, transactionWrite out m = (out, none)) ∧
    List.foldl (fun o m => (transactionWrite o m).1) out msgs = out ∧
    (∀ (q : List msg) (e : msg), msgType e = eByte →
      lastIsError (q ++ [e]) = true) := by
  refine ⟨fun m => by simp [transactionWrite, h], ?_, ?_⟩
  · induction msgs with
    | nil => rfl
    | cons m rest ih =>
      simp only [List.foldl]
      rw [show (transactionWrite out m).1 = out from by simp [transactionWrite, h]]
      exact ih
  · intro q e he
    simp [lastIsError, List.getLast?_concat, he]

/-- C3 amended witness: a concrete poisoned buffer absorbs a run of
writes unchanged. -/
theorem tx_write_noop_while_error_last_witness :
    List.foldl (fun o m => (transactionWrite o m).1)
      [[69, 0, 0, 0, 4]] [[84], [68]] = [[69, 0, 0, 0, 4]] :=
  (tx_write_noop_while_error_last [[69, 0, 0, 0, 4]] [[84], [68]] (by decide)).2.1

/-- C4: flush writes the queued messages front-to-back — the
successful write log is an exact prefix of the queue and the remainder
is the rest in order — every message removed was written successfully,
a drained queue returns nil, and when messages remain the head of the
remainder is the message whose write failed, whose error is the one
returned. -/
theorem tx_flush_fifo_stops_at_first_failure (wr : msg → Option GoErr)
    (q : List msg) :
    q = (transactionFlush wr q).log ++ (transactionFlush wr q).rem ∧
    (∀ m, m ∈ (transactionFlush wr q).log → wr m = none) ∧
    ((transactionFlush wr q).rem = [] → (transactionFlush wr q).err = none) ∧
    (∀ b rest, (transactionFlush wr q).rem = b :: rest →
      (transactionFlush wr q).err = wr b ∧ wr b ≠ none) := by
  induction q with
  | nil => refine ⟨rfl, by simp [transactionFlush], fun _ => rfl, ?_⟩
           intro b rest hrem
           simp [transactionFlush] at hrem
  | cons m tail ih =>
    obtain ⟨ih1, ih2, ih3, ih4⟩ := ih
    cases hw : wr m with
    | some e =>
      refine ⟨by simp [transactionFlush, hw], ?_, ?_, ?_⟩
      · intro x hx
        simp [transactionFlush, hw] at hx
      · intro hrem
        simp [transactionFlush, hw] at hrem
      · intro b brest hrem
        have hrem2 : m :: tail = b :: brest := by
          simpa [transactionFlush, hw] using hrem
        obtain ⟨hb, -⟩ := List.cons.inj hrem2
        subst hb
        exact ⟨by simp [transactionFlush, hw], by simp [hw]⟩
    | none =>
      refine ⟨?_, ?_, ?_, ?_⟩
      · simp only [transactionFlush, hw]
        simpa using ih1
      · intro x hx
        simp only [transactionFlush, hw] at hx
        simp at hx
        rcases hx with hx | hx
        · subst hx; exact hw
        · exact ih2 x hx
      · intro hrem
        simp only [transactionFlush, hw] at hrem ⊢
        exact ih3 hrem
      · intro b brest hrem
        simp only [transactionFlush, hw] at hrem ⊢
        exact ih4 b brest hrem

/-- C4 witness: for a concrete queue of three messages whose middle
write fails, flush leaves exactly the failed message and its successor
queued and returns the middle write's error. -/
theorem tx_flush_fifo_stops_at_first_failure_witness :
    (transactionFlush (fun m => if m = [66] then some "bfail" else none)
      [[65], [66], [67]]).rem = [[66], [67]] ∧
    (transactionFlush (fun m => if m = [66] then some "bfail" else none)
      [[65], [66], [67]]).err = some "bfail" := by
  refine ⟨by decide, ?_⟩
  have h := (tx_flush_fifo_stops_at_first_failure
    (fun m => if m = [66] then some "bfail" else none)
    [[65], [66], [67]]).2.2.2 [66] [[67]] (by decide)
  rw [h.1]
  decide

/-- C10: `transaction.Write` always returns nil, both when it appends
the message and when the poisoned buffer silently drops it, so the
return value never reveals whether the message was queued. -/
theorem tx_write_always_returns_nil (out : List msg) (m : msg) :
    (transactionWrite out m).2 = none ∧
    (transactionWrite out m).1 =
      (if lastIsError out then out else out ++ [m]) := by
  by_cases h : lastIsError out <;> simp [transactionWrite, h]

/-- The row loop of `query.Query` on an error-free iterator: one
data-row message per row, then the completion message counting from
the loop's running count. -/
theorem queryRowLoop_closed (rows : List (List GoValue)) (count : Nat) :
    queryRowLoop rows none count =
      rows.map (fun r => OutMsg.dataRow (r.map govFmt)) ++
        [OutMsg.commandComplete ("SELECT " ++ toString (count + rows.length))] := by
  induction rows generalizing count with
  | nil => simp [queryRowLoop]
  | cons r rest ih =>
    simp only [queryRowLoop, ih (count + 1), List.map_cons, List.cons_append,
      List.length_cons]
    rw [show count + (rest.length + 1) = count + 1 + rest.length from by omega]

/-- C5: on an error-free backend answer, the query path emits exactly
one row-description message carrying the backend's columns in order,
then one data-row message per row with every value stringified, then
one completion message tagged SELECT followed by the number of rows
emitted — zero rows giving SELECT 0 — and returns nil. -/
theorem query_path_emits_description_rows_and_count (cols : List String)
    (rows : List (List GoValue)) :
    queryQuery (Except.ok (cols, rows, none)) =
      (OutMsg.rowDescription cols ::
        (rows.map (fun r => OutMsg.dataRow (r.map govFmt)) ++
          [OutMsg.commandComplete ("SELECT " ++ toString rows.length)]), none) := by
  simp [queryQuery, queryRowLoop_closed]

/-- C6: the command completion tag is the fixed per-category lookup of
`tagger.Tag` applied to the affected-row count — INSERT 0, DELETE,
UPDATE, FETCH, COPY, SELECT for create-table-as — and every category
outside the lookup falls through to UPDATE. -/
theorem command_tag_lookup (n : Int) :
    taggerTag StmtNode.insertStmt n = "INSERT 0 " ++ toString n ∧
    taggerTag StmtNode.deleteStmt n = "DELETE " ++ toString n ∧
    taggerTag StmtNode.updateStmt n = "UPDATE " ++ toString n ∧
    taggerTag StmtNode.fetchStmt n = "FETCH " ++ toString n ∧
    taggerTag StmtNode.copyStmt n = "COPY " ++ toString n ∧
    taggerTag StmtNode.createTableAsStmt n = "SELECT " ++ toString n ∧
    taggerTag StmtNode.variableShowStmt n = "UPDATE " ++ toString n ∧
    taggerTag StmtNode.selectStmt n = "UPDATE " ++ toString n ∧
    taggerTag StmtNode.otherStmt n = "UPDATE " ++ toString n :=
  ⟨rfl, rfl, rfl, rfl, rfl, rfl, rfl, rfl, rfl⟩

/-- C7 counterexample: on a backend failure the query path writes the
protocol error message but returns the error-message write's nil
result, not the failure — the caller gets no error back. -/
theorem query_error_written_not_returned :
    (queryQuery (Except.error "backend failed")).1 =
      [OutMsg.errGeneric "backend failed"] ∧
    (queryQuery (Except.error "backend failed")).2 = none ∧
    ¬ (queryQuery (Except.error "backend failed")).2 =
        some "backend failed" :=
  ⟨rfl, rfl, by decide⟩

/-- C7 amended: on a failure they translate, the Query Dispatcher and
the Authenticator write a single protocol error message and return
the result of that write — nil when the write succeeds — rather than
the translated failure itself; the authenticator additionally reports
the failure through its false boolean result. The caller still must
not write a duplicate error message. -/
theorem error_written_result_of_write_returned (e : GoErr)
    (pp : String → List Nat) (user : String) (m : msg) (p : List Nat) :
    queryQuery (Except.error e) = ([OutMsg.errGeneric e], none) ∧
    (msgType m = pByte → extractPassword m = some p → p ≠ pp user →
      clearTextAuthenticate pp user m =
        some ⟨false, none,
          [clearTextPasswordRequest,
           OutMsg.errFatal (passwordMismatchDiag user)]⟩) := by
  refine ⟨rfl, ?_⟩
  intro hp hx hne
  have hne2 : ¬ (pp user = p) := fun h2 => hne h2.symm
  simp [clearTextAuthenticate, hp, hx, hne2]

/-- C7 amended witness: a concrete mismatch run writing the error and
returning nil. -/
theorem error_written_result_of_write_returned_witness :
    clearTextAuthenticate (fun _ => [1]) "" [112, 0, 0, 0, 5, 0] =
      some ⟨false, none,
        [clearTextPasswordRequest,
         OutMsg.errFatal (passwordMismatchDiag "")]⟩ :=
  (error_written_result_of_write_returned "x" (fun _ => [1]) ""
    [112, 0, 0, 0, 5, 0] []).2 (by decide) (by decide) (by decide)

/-- C8: on a response whose type is not the password-response type,
both authenticators reject with a fatal-severity error whose
diagnostic names the offending message type, that diagnostic differs
from every credential-mismatch diagnostic, and the outcome is
independent of the provider's credential — the comparison is never
reached. -/
theorem non_password_response_fatal_protocol_violation
    (md5fn : List Nat → List Nat) (pp pp2 : String → List Nat)
    (user : String) (salt : List Nat) (m : msg)
    (hp : ¬ msgType m = pByte) :
    clearTextAuthenticate pp user m =
      some ⟨false, none,
        [clearTextPasswordRequest,
         OutMsg.errFatal (expectedPasswordDiag (msgType m))]⟩ ∧
    md5Authenticate md5fn pp user salt m =
      some ⟨false, none,
        [md5PasswordRequest salt,
         OutMsg.errFatal (expectedPasswordDiag (msgType m))]⟩ ∧
    (∀ u2, expectedPasswordDiag (msgType m) ≠ passwordMismatchDiag u2) ∧
    clearTextAuthenticate pp user m = clearTextAuthenticate pp2 user m ∧
    md5Authenticate md5fn pp user salt m =
      md5Authenticate md5fn pp2 user salt m := by
  refine ⟨by simp [clearTextAuthenticate, hp], by simp [md5Authenticate, hp],
    ?_, by simp [clearTextAuthenticate, hp], by simp [md5Authenticate, hp]⟩
  intro u2 hcontra
  have h1 : (expectedPasswordDiag (msgType m)).data.head? = some 'e' := rfl
  rw [hcontra] at h1
  have h2 : (passwordMismatchDiag u2).data.head? = some 'P' := rfl
  rw [h2] at h1
  exact absurd h1 (by decide)

/-- C8 witness: a concrete non-password response is rejected with the
protocol-violation diagnostic, which differs from the mismatch one. -/
theorem non_password_response_fatal_protocol_violation_witness :
    clearTextAuthenticate (fun _ => []) "u" [88] =
      some ⟨false, none,
        [clearTextPasswordRequest,
         OutMsg.errFatal (expectedPasswordDiag 88)]⟩ ∧
    expectedPasswordDiag 88 ≠ passwordMismatchDiag "u" := by
  have h := non_password_response_fatal_protocol_violation (fun _ => [])
    (fun _ => []) (fun _ => []) "u" [] [88] (by decide)
  exact ⟨h.1, h.2.2.1 "u"⟩

/-- C9: the slice taken by `extractPassword` is in bounds exactly for
messages of at least 6 bytes, and both authenticators hand every
type-p message to it unchecked, so on a shorter type-p message the
out-of-range access (modelled by `none`) is reached. -/
theorem extract_password_out_of_range_below_six
    (md5fn : List Nat → List Nat) (pp : String → List Nat) (user : String)
    (salt : List Nat) (m : msg) :
    ((extractPassword m).isSome = true ↔ 6 ≤ m.length) ∧
    (msgType m = pByte → m.length < 6 →
      extractPassword m = none ∧
      clearTextAuthenticate pp user m = none ∧
      md5Authenticate md5fn pp user salt m = none) := by
  constructor
  · by_cases h : 6 ≤ m.length <;> simp [extractPassword, h]
  · intro hp hlen
    have hx : extractPassword m = none := by
      simp [extractPassword, show ¬ 6 ≤ m.length from by omega]
    exact ⟨hx, by simp [clearTextAuthenticate, hp, hx],
      by simp [md5Authenticate, hp, hx]⟩

/-- C9 witness: a concrete one-byte type-p message makes the slice
out of range in both authenticators. -/
theorem extract_password_out_of_range_below_six_witness :
    clearTextAuthenticate (fun _ => []) "" [112] = none ∧
    md5Authenticate (fun _ => []) (fun _ => []) "" [] [112] = none := by
  have h := (extract_password_out_of_range_below_six (fun _ => [])
    (fun _ => []) "" [] [112]).2 (by decide) (by decide)
  exact ⟨h.2.1, h.2.2⟩
